import Mathlib

/-!
# Palabos tutorial 1 (codes 1.1, 1.2 and 1.5): field initializers and main loops

A shallow embedding of the glue code of `tutorial_1_1.cpp`, `tutorial_1_2.cpp`
and `tutorial_1_5.cpp`.

* `T` (`typedef double T`) is taken in exact arithmetic, as the rationals `ℚ`.
* `plint` is the integers `ℤ`; `/` and `%` of C++ are truncating (`Int.tdiv`,
  `Int.tmod`).  The functional `initializeRhoOnDisk` can be queried at any
  coordinate, so its 64-bit arithmetic is modelled with wrap-around
  (`wrapPlint`); the sizes and step counters elsewhere stay far from the range
  of a machine word and are not wrapped.
* Reference out-parameters that a function assigns unconditionally
  (`T& rho`, `Array<T,2>& u`) are returned as results.
* The lattice engine (`MultiBlockLattice2D`, `initializeAtEquilibrium`,
  `collideAndStream`, the image writer) is external to the repository; the part
  of it the tutorials rely on is modelled from the interface description of the
  specification and marked as such.
-/

namespace Palabos

/-- Fixed-size array `Array<T,2>`: the pair of its two components, with
`T = double` in exact arithmetic. -/
abbrev Array2 := ℚ × ℚ

/-- Modelled from the spec: the parameter record `IncomprFlowParam<T>` of the
library, with the five constructor arguments it is built from in `main` of
tutorial 1.5 (reference lattice velocity, Reynolds number, resolution,
dimensionless length and height). -/
structure IncomprFlowParam where
  latticeU : ℚ
  Re : ℚ
  resolution : ℤ
  lx : ℚ
  ly : ℚ
deriving Repr

/-- Modelled from the spec: getter `getLatticeU()` of the parameter record, the
reference lattice velocity. -/
def IncomprFlowParam.getLatticeU (parameters : IncomprFlowParam) : ℚ :=
  parameters.latticeU

/-- Modelled from the spec: getter `getResolution()` of the parameter record. -/
def IncomprFlowParam.getResolution (parameters : IncomprFlowParam) : ℤ :=
  parameters.resolution

/-- Modelled from the spec: the library type `Box2D(x0, x1, y0, y1)`, an
axis-aligned rectangle of cells with inclusive bounds (the sub-region of the
data model). -/
structure Box2D where
  x0 : ℤ
  x1 : ℤ
  y0 : ℤ
  y1 : ℤ
deriving DecidableEq, Repr

/-- Modelled from the spec: membership of the cell `(iX, iY)` in a box, bounds
included. -/
def Box2D.contains (b : Box2D) (iX iY : ℤ) : Bool :=
  decide (b.x0 ≤ iX) && decide (iX ≤ b.x1) && decide (b.y0 ≤ iY) && decide (iY ≤ b.y1)

/-- Modelled from the spec: the lattice of the external engine,
`MultiBlockLattice2D<T,DESCRIPTOR>`, reduced to what the initializers write:
its size and, per grid coordinate, the density and velocity sample
`(rho, u)` the cell was last initialized with. -/
structure MultiBlockLattice2D where
  nx : ℤ
  ny : ℤ
  cell : ℤ → ℤ → ℚ × Array2

/-- Modelled from the spec: getter `getNx()` of the lattice. -/
def MultiBlockLattice2D.getNx (lattice : MultiBlockLattice2D) : ℤ := lattice.nx

/-- Modelled from the spec: getter `getNy()` of the lattice. -/
def MultiBlockLattice2D.getNy (lattice : MultiBlockLattice2D) : ℤ := lattice.ny

/-- Modelled from the spec: `getBoundingBox()`, the box of all grid
coordinates `[0, nx) × [0, ny)`. -/
def MultiBlockLattice2D.getBoundingBox (lattice : MultiBlockLattice2D) : Box2D :=
  ⟨0, lattice.nx - 1, 0, lattice.ny - 1⟩

/-- Modelled from the spec: `initializeAtEquilibrium(lattice, domain, rho, u)`
of the engine, a per-cell overwrite with the constant sample `(rho, u)` on the
cells of `domain` that belong to the grid; every other cell is untouched. -/
def initializeAtEquilibrium (lattice : MultiBlockLattice2D) (domain : Box2D)
    (rho : ℚ) (u : Array2) : MultiBlockLattice2D :=
  { lattice with
    cell := fun iX iY =>
      if domain.contains iX iY && lattice.getBoundingBox.contains iX iY then (rho, u)
      else lattice.cell iX iY }

/-- Modelled from the spec: `initializeAtEquilibrium(lattice, domain, f)` of
the engine with a user-supplied functional `f(iX, iY, rho, u)`: each cell of
`domain` that belongs to the grid is overwritten with the sample the
functional yields at its coordinate. -/
def initializeAtEquilibriumWith (lattice : MultiBlockLattice2D) (domain : Box2D)
    (f : ℤ → ℤ → ℚ × Array2) : MultiBlockLattice2D :=
  { lattice with
    cell := fun iX iY =>
      if domain.contains iX iY && lattice.getBoundingBox.contains iX iY then f iX iY
      else lattice.cell iX iY }

/-- Modelled from the spec: `lattice.initialize()`, the consistency pass of
the engine; it leaves the initialized samples as they are. -/
def MultiBlockLattice2D.initialize (lattice : MultiBlockLattice2D) :
    MultiBlockLattice2D :=
  lattice

/-- The value a 64-bit two's complement `plint` holds after an arithmetic
operation whose exact result is `x`: `x` itself when it is in
`[-2^63, 2^63)`, and `x` reduced modulo `2^64` into that range otherwise. -/
def wrapPlint (x : ℤ) : ℤ :=
  (x + 2 ^ 63) % 2 ^ 64 - 2 ^ 63

/-- Calls a main loop makes on its external collaborators, in program order:
an image export `writeScaledGif(createFileName("u", iter, 6), ...)` with its
frame number `iter`, or one `lattice.collideAndStream()`. -/
inductive Event where
  | writeScaledGif (iter : ℤ)
  | collideAndStream
deriving DecidableEq, Repr

/-- Frame numbers of the image exports of a trace, in program order. -/
def exportFrames : List Event → List ℤ
  | [] => []
  | Event.writeScaledGif iter :: rest => iter :: exportFrames rest
  | Event.collideAndStream :: rest => exportFrames rest

/-- The statement `for (plint iT = i0; cond(iT); ++iT) body(iT)` run on a
state, with a bound on the number of iterations: the result is the exit value
of `iT` and the final state, or `none` when the bound is reached while the
condition still holds. -/
def forLoop {σ : Type} (cond : ℤ → Bool) (body : ℤ → σ → σ) : ℕ → ℤ → σ → Option (ℤ × σ)
  | 0, iT, s => if cond iT then none else some (iT, s)
  | fuel + 1, iT, s =>
      if cond iT then forLoop cond body fuel (iT + 1) (body iT s) else some (iT, s)

/-- Events of one loop iteration at step `iT` when the export is guarded by
`trigger`: the export of frame `iT` if the guard holds, then one
`collideAndStream`. -/
def stepEvents (trigger : ℤ → Bool) (iT : ℤ) : List Event :=
  (if trigger iT then [Event.writeScaledGif iT] else []) ++ [Event.collideAndStream]

/-- Events of `k` successive loop iterations, the first at step `iT`. -/
def runEvents (trigger : ℤ → Bool) : ℕ → ℤ → List Event
  | 0, _ => []
  | k + 1, iT => stepEvents trigger iT ++ runEvents trigger k (iT + 1)

namespace Tutorial_1_1

/-- The box `centralSquare` that `defineInitialDensityAtCenter` of
`tutorial_1_1.cpp` builds from the lattice size:
`centralSquareRadius = nx/6; centerX = nx/3; centerY = ny/4;`
`Box2D centralSquare(centerX - centralSquareRadius, centerX + centralSquareRadius,
centerY - centralSquareRadius, centerY + centralSquareRadius)`. -/
def centralSquare (nx ny : ℤ) : Box2D :=
  let centralSquareRadius := Int.tdiv nx 6
  let centerX := Int.tdiv nx 3
  let centerY := Int.tdiv ny 4
  ⟨centerX - centralSquareRadius, centerX + centralSquareRadius,
    centerY - centralSquareRadius, centerY + centralSquareRadius⟩

/-- Initializer `defineInitialDensityAtCenter` of `tutorial_1_1.cpp`: constant
density `rho0` and zero velocity on the whole bounding box, then density
`rho0 + deltaRho` on `centralSquare`, then `lattice.initialize()`. -/
def defineInitialDensityAtCenter (lattice : MultiBlockLattice2D) :
    MultiBlockLattice2D :=
  let nx := lattice.getNx
  let ny := lattice.getNy
  let centralSquare := centralSquare nx ny
  let rho0 : ℚ := 1
  let deltaRho : ℚ := 1 / 10000
  let u0 : Array2 := (0, 0)
  let lattice1 := initializeAtEquilibrium lattice lattice.getBoundingBox rho0 u0
  let lattice2 := initializeAtEquilibrium lattice1 centralSquare (rho0 + deltaRho) u0
  lattice2.initialize

/-- Body of the main loop of `tutorial_1_1.cpp`:
`if (iT%40==0) { ... imageWriter.writeScaledGif(createFileName("u", iT, 6), ...); }`
`lattice.collideAndStream();`. -/
def loopBody (iT : ℤ) (trace : List Event) : List Event :=
  let trace1 := if Int.tmod iT 40 = 0 then trace ++ [Event.writeScaledGif iT] else trace
  trace1 ++ [Event.collideAndStream]

/-- Main loop of `tutorial_1_1.cpp`, `for (plint iT=0; iT<maxIter; ++iT)`,
started on the empty trace. -/
def mainLoop (maxIter : ℤ) (fuel : ℕ) : Option (ℤ × List Event) :=
  forLoop (fun iT => decide (iT < maxIter)) loopBody fuel 0 []

end Tutorial_1_1

namespace Tutorial_1_2

/-- Global `const plint nx = 600`. -/
def nx : ℤ := 600

/-- Global `const plint ny = 600`. -/
def ny : ℤ := 600

/-- Global `T rho0 = 1.`. -/
def rho0 : ℚ := 1

/-- Global `T deltaRho = 1.e-4`. -/
def deltaRho : ℚ := 1 / 10000

/-- Global `Array<T,2> u0(0,0)`. -/
def u0 : Array2 := (0, 0)

/-- Functional `initializeRhoOnDisk(iX, iY, rho, u)` of `tutorial_1_2.cpp`;
the result is `(rho, u)`.  Every subtraction, product and sum of the test
`(iX-centerX)*(iX-centerX) + (iY-centerY)*(iY-centerY) < radius*radius` is a
64-bit `plint` operation and is reduced by `wrapPlint`. -/
def initializeRhoOnDisk (iX iY : ℤ) : ℚ × Array2 :=
  let radius := Int.tdiv nx 6
  let centerX := Int.tdiv nx 3
  let centerY := Int.tdiv ny 4
  let u := u0
  if wrapPlint (wrapPlint (wrapPlint (iX - centerX) * wrapPlint (iX - centerX))
        + wrapPlint (wrapPlint (iY - centerY) * wrapPlint (iY - centerY)))
      < wrapPlint (radius * radius) then
    (rho0 + deltaRho, u)
  else
    (rho0, u)

/-- Initializer `defineInitialDensityAtCenter` of `tutorial_1_2.cpp`: constant
density `rho0` and velocity `u0` on the whole bounding box, then a pass of
`initializeRhoOnDisk` on the whole bounding box, then `lattice.initialize()`. -/
def defineInitialDensityAtCenter (lattice : MultiBlockLattice2D) :
    MultiBlockLattice2D :=
  let lattice1 := initializeAtEquilibrium lattice lattice.getBoundingBox rho0 u0
  let lattice2 := initializeAtEquilibriumWith lattice1 lattice1.getBoundingBox
    initializeRhoOnDisk
  lattice2.initialize

/-- Global `const plint maxIter = 1000`. -/
def maxIter : ℤ := 1000

/-- Body of the main loop of `tutorial_1_2.cpp`:
`if (iT%40==0) { ... imageWriter.writeScaledGif(createFileName("u", iT, 6), ...); }`
`lattice.collideAndStream();`. -/
def loopBody (iT : ℤ) (trace : List Event) : List Event :=
  let trace1 := if Int.tmod iT 40 = 0 then trace ++ [Event.writeScaledGif iT] else trace
  trace1 ++ [Event.collideAndStream]

/-- Main loop of `tutorial_1_2.cpp`, `for (plint iT=0; iT<maxIter; ++iT)`,
started on the empty trace; the iteration count is a parameter. -/
def mainLoop (maxIter : ℤ) (fuel : ℕ) : Option (ℤ × List Event) :=
  forLoop (fun iT => decide (iT < maxIter)) loopBody fuel 0 []

end Tutorial_1_2

namespace Tutorial_1_5

/-- Velocity on the parabolic Poiseuille profile
(`tutorial_1_5.cpp`, `poiseuilleVelocity`):
`T y = (T)iY / parameters.getResolution();`
`return 4.*parameters.getLatticeU() * (y-y*y);` -/
def poiseuilleVelocity (iY : ℤ) (parameters : IncomprFlowParam) : ℚ :=
  let y : ℚ := (iY : ℚ) / (parameters.getResolution : ℚ)
  4 * parameters.getLatticeU * (y - y * y)

/-- Functional class `PoiseuilleVelocity<T>`: it stores a copy of the
parameters. -/
structure PoiseuilleVelocity where
  parameters : IncomprFlowParam
deriving Repr

/-- Velocity-only call form, `operator()(plint iX, plint iY, Array<T,2>& u)`:
`u[0] = poiseuilleVelocity(iY, parameters); u[1] = T();`. -/
def PoiseuilleVelocity.applyU (self : PoiseuilleVelocity) (_iX iY : ℤ) : Array2 :=
  (poiseuilleVelocity iY self.parameters, 0)

/-- Density-and-velocity call form,
`operator()(plint iX, plint iY, T& rho, Array<T,2>& u)`:
`u[0] = poiseuilleVelocity(iY, parameters); u[1] = T(); rho = (T)1;`.
The result is `(rho, u)`. -/
def PoiseuilleVelocity.applyRhoU (self : PoiseuilleVelocity) (_iX iY : ℤ) :
    ℚ × Array2 :=
  (1, (poiseuilleVelocity iY self.parameters, 0))

/-- Export `writeGifs(lattice, iter)` of `tutorial_1_5.cpp`:
`imageWriter.writeScaledGif(createFileName("u", iter, 6), ...)`. -/
def writeGifs (trace : List Event) (iter : ℤ) : List Event :=
  trace ++ [Event.writeScaledGif iter]

/-- Body of the main loop of `tutorial_1_5.cpp`, with `nStep` the value of
`parameters.nStep(imSave)`:
`if (iT%parameters.nStep(imSave)==0 && iT>0) { ... writeGifs(lattice, iT); }`
`lattice.collideAndStream();`.
The source evaluates `iT % nStep` first, which is undefined for `nStep = 0`;
the embedding stands for the source only for `nStep ≠ 0`, and every statement
about this loop assumes `1 ≤ nStep`. -/
def loopBody (nStep : ℤ) (iT : ℤ) (trace : List Event) : List Event :=
  let trace1 := if Int.tmod iT nStep = 0 ∧ iT > 0 then writeGifs trace iT else trace
  trace1 ++ [Event.collideAndStream]

/-- Main loop of `tutorial_1_5.cpp`,
`for (plint iT=0; iT*parameters.getDeltaT()<maxT; ++iT)`, started on the
empty trace, with `deltaT` the value of `parameters.getDeltaT()` and `nStep`
the value of `parameters.nStep(imSave)`. -/
def mainLoop (deltaT maxT : ℚ) (nStep : ℤ) (fuel : ℕ) : Option (ℤ × List Event) :=
  forLoop (fun iT => decide ((iT : ℚ) * deltaT < maxT)) (loopBody nStep) fuel 0 []

end Tutorial_1_5

/-! ## Properties of the Poiseuille profile -/

section Poiseuille

open Tutorial_1_5

/-- The profile written with the normalised height `y = iY / N`. -/
lemma poiseuilleVelocity_eq (iY : ℤ) (p : IncomprFlowParam) :
    poiseuilleVelocity iY p
      = 4 * p.latticeU * ((iY : ℚ) / (p.resolution : ℚ)
          - ((iY : ℚ) / (p.resolution : ℚ)) ^ 2) := by
  simp only [poiseuilleVelocity, IncomprFlowParam.getLatticeU,
    IncomprFlowParam.getResolution]
  ring

/-- The gap between the reference velocity and the profile is a square. -/
lemma latticeU_sub_poiseuilleVelocity (iY : ℤ) (p : IncomprFlowParam) :
    p.latticeU - poiseuilleVelocity iY p
      = p.latticeU * (1 - 2 * ((iY : ℚ) / (p.resolution : ℚ))) ^ 2 := by
  rw [poiseuilleVelocity_eq]
  ring

/-- A resolution of at least one is a non-zero divisor. -/
lemma resolution_cast_ne_zero (p : IncomprFlowParam) (hN : (1 : ℤ) ≤ p.resolution) :
    (p.resolution : ℚ) ≠ 0 := by
  have h : (0 : ℤ) < p.resolution := by omega
  exact_mod_cast h.ne'

/-- The normalised height is one half exactly at the integer mid-point. -/
lemma normalised_height_half (iY N : ℤ) (hN : 1 ≤ N) :
    (1 - 2 * ((iY : ℚ) / (N : ℚ)) = 0) ↔ 2 * iY = N := by
  have hN0 : (N : ℚ) ≠ 0 := by
    have : (0 : ℤ) < N := by omega
    exact_mod_cast this.ne'
  constructor
  · intro h
    have h1 : (2 : ℚ) * (iY : ℚ) = (N : ℚ) := by
      field_simp at h
      linarith
    exact_mod_cast h1
  · intro h
    have h1 : (2 : ℚ) * (iY : ℚ) = (N : ℚ) := by exact_mod_cast h
    field_simp
    linarith

/-- C1: for a resolution `N ≥ 1`, both call forms of `PoiseuilleVelocity`
return the same velocity, with streamwise component `4*U*(y - y^2)` for
`y = iY/N` and transverse component `0`, whatever `iX` is; the
density-and-velocity form returns density `1`. -/
theorem poiseuilleVelocity_call_forms (p : IncomprFlowParam) (iX iY : ℤ)
    (_hN : 1 ≤ p.getResolution) :
    (PoiseuilleVelocity.mk p).applyU iX iY
        = (4 * p.getLatticeU * ((iY : ℚ) / (p.getResolution : ℚ)
            - ((iY : ℚ) / (p.getResolution : ℚ)) ^ 2), 0)
      ∧ (PoiseuilleVelocity.mk p).applyRhoU iX iY
        = (1, (PoiseuilleVelocity.mk p).applyU iX iY)
      ∧ ∀ iX2 : ℤ,
          (PoiseuilleVelocity.mk p).applyU iX2 iY = (PoiseuilleVelocity.mk p).applyU iX iY
          ∧ (PoiseuilleVelocity.mk p).applyRhoU iX2 iY
              = (PoiseuilleVelocity.mk p).applyRhoU iX iY := by
  refine ⟨?_, rfl, fun _ => ⟨rfl, rfl⟩⟩
  simp only [PoiseuilleVelocity.applyU, poiseuilleVelocity_eq,
    IncomprFlowParam.getLatticeU, IncomprFlowParam.getResolution]

/-- Witness of C1 at the shipped parameters (`U = 1e-2`, `N = 100`) and the
coordinate `(7, 25)`. -/
theorem poiseuilleVelocity_call_forms_witness :
    (1 : ℤ) ≤ (IncomprFlowParam.mk (1 / 100) 100 100 2 1).getResolution
      ∧ (PoiseuilleVelocity.mk (IncomprFlowParam.mk (1 / 100) 100 100 2 1)).applyRhoU 7 25
          = (1, (PoiseuilleVelocity.mk (IncomprFlowParam.mk (1 / 100) 100 100 2 1)).applyU 7 25) :=
  ⟨by decide,
    (poiseuilleVelocity_call_forms (IncomprFlowParam.mk (1 / 100) 100 100 2 1) 7 25
      (by decide)).2.1⟩

/-- C6: for a resolution `N ≥ 1` the profile vanishes at both walls,
`iY = 0` and `iY = N`, and for even `N` it equals the reference velocity at
the centre `iY = N/2`. -/
theorem poiseuilleVelocity_walls_centre (p : IncomprFlowParam)
    (hN : 1 ≤ p.getResolution) :
    poiseuilleVelocity 0 p = 0
      ∧ poiseuilleVelocity p.getResolution p = 0
      ∧ (p.getResolution % 2 = 0 →
          poiseuilleVelocity (p.getResolution / 2) p = p.getLatticeU) := by
  simp only [IncomprFlowParam.getResolution, IncomprFlowParam.getLatticeU] at *
  have hN1 : (1 : ℤ) ≤ p.resolution := hN
  have hN0 : (p.resolution : ℚ) ≠ 0 := resolution_cast_ne_zero p hN
  refine ⟨?_, ?_, ?_⟩
  · rw [poiseuilleVelocity_eq]; simp
  · rw [poiseuilleVelocity_eq, div_self hN0]; ring
  · intro hev
    have h2 : 2 * ((p.resolution : ℤ) / 2) = p.resolution := by omega
    have hz := (normalised_height_half (p.resolution / 2) p.resolution hN1).2 h2
    have hgap := latticeU_sub_poiseuilleVelocity (p.resolution / 2) p
    rw [hz] at hgap
    linarith

/-- Witness of C6 at the shipped parameters (`U = 1e-2`, `N = 100`). -/
theorem poiseuilleVelocity_walls_centre_witness :
    poiseuilleVelocity 0 (IncomprFlowParam.mk (1 / 100) 100 100 2 1) = 0
      ∧ poiseuilleVelocity 100 (IncomprFlowParam.mk (1 / 100) 100 100 2 1) = 0
      ∧ poiseuilleVelocity 50 (IncomprFlowParam.mk (1 / 100) 100 100 2 1) = 1 / 100 := by
  have h := poiseuilleVelocity_walls_centre (IncomprFlowParam.mk (1 / 100) 100 100 2 1)
    (by decide)
  exact ⟨h.1, h.2.1, h.2.2 (by decide)⟩

/-- C7: the profile is symmetric about the mid-height: for a resolution
`N ≥ 1` and every integer `iY`, the values at `iY` and at `N - iY` agree. -/
theorem poiseuilleVelocity_symmetric (p : IncomprFlowParam) (iY : ℤ)
    (hN : 1 ≤ p.getResolution) :
    poiseuilleVelocity iY p = poiseuilleVelocity (p.getResolution - iY) p := by
  simp only [IncomprFlowParam.getResolution] at *
  have hN0 : (p.resolution : ℚ) ≠ 0 := resolution_cast_ne_zero p hN
  rw [poiseuilleVelocity_eq, poiseuilleVelocity_eq]
  have hy : ((p.resolution - iY : ℤ) : ℚ) / (p.resolution : ℚ)
      = 1 - (iY : ℚ) / (p.resolution : ℚ) := by
    push_cast
    field_simp
  rw [hy]
  ring

/-- Witness of C7 at the shipped parameters and `iY = 30` (mirror `70`). -/
theorem poiseuilleVelocity_symmetric_witness :
    poiseuilleVelocity 30 (IncomprFlowParam.mk (1 / 100) 100 100 2 1)
      = poiseuilleVelocity (100 - 30) (IncomprFlowParam.mk (1 / 100) 100 100 2 1) :=
  poiseuilleVelocity_symmetric (IncomprFlowParam.mk (1 / 100) 100 100 2 1) 30 (by decide)

/-- C8, as stated, fails at reference velocity `U = 0` (resolution 100): the
profile is `0 = U` at `iY = 10` although `2 * 10 ≠ 100`, so equality with
the reference velocity does not single out the mid-height. -/
theorem poiseuilleVelocity_max_equality_fails :
    (1 : ℤ) ≤ (IncomprFlowParam.mk 0 100 100 2 1).getResolution
      ∧ (0 : ℚ) ≤ (IncomprFlowParam.mk 0 100 100 2 1).getLatticeU
      ∧ ¬ (poiseuilleVelocity 10 (IncomprFlowParam.mk 0 100 100 2 1)
              = (IncomprFlowParam.mk 0 100 100 2 1).getLatticeU
            ↔ 2 * (10 : ℤ) = (IncomprFlowParam.mk 0 100 100 2 1).getResolution) := by
  refine ⟨by decide, le_refl _, ?_⟩
  intro h
  have h1 : poiseuilleVelocity 10 (IncomprFlowParam.mk 0 100 100 2 1)
      = (IncomprFlowParam.mk 0 100 100 2 1).getLatticeU := by
    simp [poiseuilleVelocity, IncomprFlowParam.getLatticeU]
  exact absurd (h.1 h1) (by decide)

/-- C8 (amended): for a resolution `N ≥ 1` and a reference velocity `U ≥ 0`
the profile never exceeds `U` and equals `U` at the mid-height `2*iY = N`;
for `U > 0` it equals `U` exactly when `2*iY = N`; and for `0 ≤ iY ≤ N` it is
non-negative. -/
theorem poiseuilleVelocity_max (p : IncomprFlowParam) (iY : ℤ)
    (hN : 1 ≤ p.getResolution) (hU : 0 ≤ p.getLatticeU) :
    poiseuilleVelocity iY p ≤ p.getLatticeU
      ∧ (2 * iY = p.getResolution → poiseuilleVelocity iY p = p.getLatticeU)
      ∧ (0 < p.getLatticeU →
          (poiseuilleVelocity iY p = p.getLatticeU ↔ 2 * iY = p.getResolution))
      ∧ (0 ≤ iY → iY ≤ p.getResolution → 0 ≤ poiseuilleVelocity iY p) := by
  simp only [IncomprFlowParam.getResolution, IncomprFlowParam.getLatticeU] at *
  have hgap := latticeU_sub_poiseuilleVelocity iY p
  have hhalf := normalised_height_half iY p.resolution hN
  have hNpos : (0 : ℚ) < (p.resolution : ℚ) := by
    have : (0 : ℤ) < p.resolution := by omega
    exact_mod_cast this
  have hmid : 2 * iY = p.resolution → poiseuilleVelocity iY p = p.latticeU := by
    intro h
    rw [hhalf.2 h] at hgap
    linarith
  refine ⟨?_, hmid, ?_, ?_⟩
  · have hsq : 0 ≤ p.latticeU * (1 - 2 * ((iY : ℚ) / (p.resolution : ℚ))) ^ 2 :=
      mul_nonneg hU (sq_nonneg _)
    linarith
  · intro hUpos
    refine ⟨?_, hmid⟩
    intro heq
    have hz : p.latticeU * (1 - 2 * ((iY : ℚ) / (p.resolution : ℚ))) ^ 2 = 0 := by
      rw [← hgap, heq, sub_self]
    rcases mul_eq_zero.1 hz with h0 | h0
    · exact absurd h0 hUpos.ne'
    · exact hhalf.1 (pow_eq_zero_iff (two_ne_zero)|>.1 h0)
  · intro h0 h1
    have hy0 : (0 : ℚ) ≤ (iY : ℚ) / (p.resolution : ℚ) :=
      div_nonneg (by exact_mod_cast h0) hNpos.le
    have hy1 : (iY : ℚ) / (p.resolution : ℚ) ≤ 1 :=
      (div_le_one hNpos).2 (by exact_mod_cast h1)
    rw [poiseuilleVelocity_eq]
    have hprod : 0 ≤ ((iY : ℚ) / (p.resolution : ℚ)) * (1 - (iY : ℚ) / (p.resolution : ℚ)) :=
      mul_nonneg hy0 (by linarith)
    have hU4 : 0 ≤ 4 * p.latticeU := by linarith
    calc (0 : ℚ) ≤ 4 * p.latticeU
          * (((iY : ℚ) / (p.resolution : ℚ)) * (1 - (iY : ℚ) / (p.resolution : ℚ))) :=
            mul_nonneg hU4 hprod
      _ = 4 * p.latticeU * ((iY : ℚ) / (p.resolution : ℚ)
            - ((iY : ℚ) / (p.resolution : ℚ)) ^ 2) := by ring

/-- Witness of C8 (amended) at the shipped parameters (`U = 1e-2`, `N = 100`)
and `iY = 50`. -/
theorem poiseuilleVelocity_max_witness :
    poiseuilleVelocity 50 (IncomprFlowParam.mk (1 / 100) 100 100 2 1) ≤ 1 / 100
      ∧ 0 ≤ poiseuilleVelocity 50 (IncomprFlowParam.mk (1 / 100) 100 100 2 1) := by
  have h := poiseuilleVelocity_max (IncomprFlowParam.mk (1 / 100) 100 100 2 1) 50
    (by decide) (by norm_num [IncomprFlowParam.getLatticeU])
  exact ⟨h.1, h.2.2.2 (by decide) (by decide)⟩

end Poiseuille

/-! ## Density perturbations of tutorials 1.1 and 1.2 -/

section Perturbation

/-- Membership in a box, as a proposition. -/
lemma Box2D.contains_iff (b : Box2D) (iX iY : ℤ) :
    b.contains iX iY = true ↔ b.x0 ≤ iX ∧ iX ≤ b.x1 ∧ b.y0 ≤ iY ∧ iY ≤ b.y1 := by
  simp [Box2D.contains, and_assoc]

/-- A cell is in the bounding box exactly when it is a grid coordinate. -/
lemma getBoundingBox_contains_iff (lattice : MultiBlockLattice2D) (iX iY : ℤ) :
    lattice.getBoundingBox.contains iX iY = true
      ↔ (0 ≤ iX ∧ iX < lattice.getNx) ∧ (0 ≤ iY ∧ iY < lattice.getNy) := by
  rw [Box2D.contains_iff]
  simp only [MultiBlockLattice2D.getBoundingBox, MultiBlockLattice2D.getNx,
    MultiBlockLattice2D.getNy]
  omega

/-- Truncating division of a non-negative size by a positive literal is the
usual quotient. -/
lemma tdiv_size (n k : ℤ) (hn : 0 ≤ n) (hk : 0 ≤ k) : Int.tdiv n k = n / k :=
  Int.tdiv_eq_ediv hn hk

/-- The disk of tutorial 1.2 has radius 100 and centre (200, 150). -/
lemma disk_constants :
    Int.tdiv Tutorial_1_2.nx 6 = 100 ∧ Int.tdiv Tutorial_1_2.nx 3 = 200
      ∧ Int.tdiv Tutorial_1_2.ny 4 = 150 := by
  decide

/-- On a grid coordinate the constant initializer writes inside the domain
and keeps the cell outside of it. -/
lemma initializeAtEquilibrium_cell (lattice : MultiBlockLattice2D) (domain : Box2D)
    (rho : ℚ) (u : Array2) (x y : ℤ) (h : lattice.getBoundingBox.contains x y = true) :
    (initializeAtEquilibrium lattice domain rho u).cell x y
      = if domain.contains x y = true then (rho, u) else lattice.cell x y := by
  simp only [initializeAtEquilibrium, h, Bool.and_true]

/-- On a grid coordinate the functional initializer writes inside the domain
and keeps the cell outside of it. -/
lemma initializeAtEquilibriumWith_cell (lattice : MultiBlockLattice2D) (domain : Box2D)
    (f : ℤ → ℤ → ℚ × Array2) (x y : ℤ) (h : lattice.getBoundingBox.contains x y = true) :
    (initializeAtEquilibriumWith lattice domain f).cell x y
      = if domain.contains x y = true then f x y else lattice.cell x y := by
  simp only [initializeAtEquilibriumWith, h, Bool.and_true]

/-- The constant initializer keeps the size of the lattice. -/
lemma initializeAtEquilibrium_getBoundingBox (lattice : MultiBlockLattice2D)
    (domain : Box2D) (rho : ℚ) (u : Array2) :
    (initializeAtEquilibrium lattice domain rho u).getBoundingBox
      = lattice.getBoundingBox :=
  rfl

/-- The cells written by `defineInitialDensityAtCenter` of tutorial 1.1. -/
lemma defineInitialDensityAtCenter_1_1_cell (lattice : MultiBlockLattice2D) (x y : ℤ)
    (hx : 0 ≤ x ∧ x < lattice.getNx) (hy : 0 ≤ y ∧ y < lattice.getNy) :
    (Tutorial_1_1.defineInitialDensityAtCenter lattice).cell x y
      = (if (Tutorial_1_1.centralSquare lattice.getNx lattice.getNy).contains x y
          then 1 + 1 / 10000 else 1, ((0 : ℚ), (0 : ℚ))) := by
  have hbb : lattice.getBoundingBox.contains x y = true :=
    (getBoundingBox_contains_iff lattice x y).2 ⟨hx, hy⟩
  show (initializeAtEquilibrium (initializeAtEquilibrium lattice lattice.getBoundingBox 1 (0, 0))
      (Tutorial_1_1.centralSquare lattice.getNx lattice.getNy) (1 + 1 / 10000) (0, 0)).cell x y
    = _
  rw [initializeAtEquilibrium_cell _ _ _ _ x y
      (by rw [initializeAtEquilibrium_getBoundingBox]; exact hbb),
    initializeAtEquilibrium_cell _ _ _ _ x y hbb, if_pos hbb]
  split_ifs <;> rfl

/-- A value in the range of `plint` is held unchanged. -/
lemma wrapPlint_eq (x : ℤ) (h1 : -2 ^ 63 ≤ x) (h2 : x < 2 ^ 63) : wrapPlint x = x := by
  unfold wrapPlint
  omega

/-- A number whose square is below `2^63` is below `2^32` in absolute value. -/
lemma abs_lt_of_mul_self_lt (d s : ℤ) (hs : d * d ≤ s) (h : s < 2 ^ 63) :
    -2 ^ 32 < d ∧ d < 2 ^ 32 := by
  constructor
  · by_contra hc
    push_neg at hc
    nlinarith
  · by_contra hc
    push_neg at hc
    nlinarith

/-- Every coordinate of the 600 by 600 grid is within the range where the
squared distance to the centre of the disk fits a `plint`. -/
lemma grid_sq_dist_lt (iX iY : ℤ) (hx : 0 ≤ iX ∧ iX < 600) (hy : 0 ≤ iY ∧ iY < 600) :
    (iX - 200) ^ 2 + (iY - 150) ^ 2 < 2 ^ 63 := by
  have h1 : (iX - 200) ^ 2 ≤ 400 ^ 2 := by
    apply sq_le_sq'
    · omega
    · omega
  have h2 : (iY - 150) ^ 2 ≤ 450 ^ 2 := by
    apply sq_le_sq'
    · omega
    · omega
  have h3 : (400 : ℤ) ^ 2 + 450 ^ 2 < 2 ^ 63 := by decide
  omega

/-- C2, as stated, fails far away from the grid: at `iX = 2^32 + 200`,
`iY = 150` the coordinate is outside the circle, but the 64-bit product
`(iX-200)*(iX-200) = 2^64` wraps to `0` and the functional returns the
perturbed density `rho0 + deltaRho`, which differs from `rho0`. -/
theorem initializeRhoOnDisk_overflow :
    ¬ (((4294967496 : ℤ) - 200) ^ 2 + ((150 : ℤ) - 150) ^ 2 < 100 ^ 2)
      ∧ Tutorial_1_2.initializeRhoOnDisk 4294967496 150
          = (Tutorial_1_2.rho0 + Tutorial_1_2.deltaRho, ((0 : ℚ), (0 : ℚ)))
      ∧ Tutorial_1_2.rho0 + Tutorial_1_2.deltaRho ≠ Tutorial_1_2.rho0 := by
  refine ⟨by decide, ?_, by norm_num [Tutorial_1_2.rho0, Tutorial_1_2.deltaRho]⟩
  unfold Tutorial_1_2.initializeRhoOnDisk
  rw [if_pos (by decide)]
  rfl

/-- C2 (amended): at every coordinate whose squared distance to the centre
`(200, 150)` is below `2^63`, so that no 64-bit operation of the test
overflows, `initializeRhoOnDisk` returns density `rho0 + deltaRho` strictly
inside the circle of radius 100, density `rho0` on or outside it, and velocity
`(0, 0)` in both cases; every coordinate of the 600 by 600 grid is in that
range. -/
theorem initializeRhoOnDisk_in_range (iX iY : ℤ) :
    ((iX - 200) ^ 2 + (iY - 150) ^ 2 < 2 ^ 63 →
        Tutorial_1_2.initializeRhoOnDisk iX iY
          = (if (iX - 200) ^ 2 + (iY - 150) ^ 2 < 100 ^ 2
              then Tutorial_1_2.rho0 + Tutorial_1_2.deltaRho else Tutorial_1_2.rho0,
             ((0 : ℚ), (0 : ℚ))))
      ∧ ((0 ≤ iX ∧ iX < 600) ∧ (0 ≤ iY ∧ iY < 600) →
          (iX - 200) ^ 2 + (iY - 150) ^ 2 < 2 ^ 63) := by
  refine ⟨?_, fun hg => grid_sq_dist_lt iX iY hg.1 hg.2⟩
  intro hrange
  obtain ⟨hr, hcx, hcy⟩ := disk_constants
  have hxx : 0 ≤ (iX - 200) * (iX - 200) := mul_self_nonneg _
  have hyy : 0 ≤ (iY - 150) * (iY - 150) := mul_self_nonneg _
  have hsum : (iX - 200) * (iX - 200) + (iY - 150) * (iY - 150) < 2 ^ 63 := by
    rw [pow_two, pow_two] at hrange
    exact hrange
  have hdx := abs_lt_of_mul_self_lt (iX - 200)
    ((iX - 200) * (iX - 200) + (iY - 150) * (iY - 150)) (by omega) hsum
  have hdy := abs_lt_of_mul_self_lt (iY - 150)
    ((iX - 200) * (iX - 200) + (iY - 150) * (iY - 150)) (by omega) hsum
  have wdx : wrapPlint (iX - 200) = iX - 200 := wrapPlint_eq _ (by omega) (by omega)
  have wdy : wrapPlint (iY - 150) = iY - 150 := wrapPlint_eq _ (by omega) (by omega)
  have wxx : wrapPlint ((iX - 200) * (iX - 200)) = (iX - 200) * (iX - 200) :=
    wrapPlint_eq _ (by omega) (by omega)
  have wyy : wrapPlint ((iY - 150) * (iY - 150)) = (iY - 150) * (iY - 150) :=
    wrapPlint_eq _ (by omega) (by omega)
  have wsum : wrapPlint ((iX - 200) * (iX - 200) + (iY - 150) * (iY - 150))
      = (iX - 200) * (iX - 200) + (iY - 150) * (iY - 150) :=
    wrapPlint_eq _ (by omega) (by omega)
  have wrr : wrapPlint (100 * 100) = 100 * 100 := by decide
  simp only [Tutorial_1_2.initializeRhoOnDisk, hr, hcx, hcy, Tutorial_1_2.u0, wdx, wdy,
    wxx, wyy, wsum, wrr]
  have hiff : (iX - 200) * (iX - 200) + (iY - 150) * (iY - 150) < (100 : ℤ) * 100
      ↔ (iX - 200) ^ 2 + (iY - 150) ^ 2 < (100 : ℤ) ^ 2 := by
    rw [pow_two, pow_two, pow_two]
  by_cases h : (iX - 200) ^ 2 + (iY - 150) ^ 2 < (100 : ℤ) ^ 2
  · rw [if_pos (hiff.2 h), if_pos h]
  · rw [if_neg (fun h2 => h (hiff.1 h2)), if_neg h]

/-- Witness of C2 (amended) at the grid coordinates `(210, 160)`, inside the
circle, and `(300, 150)`, on the circle. -/
theorem initializeRhoOnDisk_in_range_witness :
    Tutorial_1_2.initializeRhoOnDisk 210 160
        = (Tutorial_1_2.rho0 + Tutorial_1_2.deltaRho, ((0 : ℚ), (0 : ℚ)))
      ∧ Tutorial_1_2.initializeRhoOnDisk 300 150 = (Tutorial_1_2.rho0, ((0 : ℚ), (0 : ℚ))) := by
  have h1 := (initializeRhoOnDisk_in_range 210 160).1 (by decide)
  have h2 := (initializeRhoOnDisk_in_range 300 150).1 (by decide)
  rw [if_pos (by decide)] at h1
  rw [if_neg (by decide)] at h2
  exact ⟨h1, h2⟩

/-- C3: after `defineInitialDensityAtCenter` of tutorial 1.1 every grid
coordinate has velocity `(0, 0)`, has density `rho0 + deltaRho` exactly when
it lies in the inclusive box of half-width `nx/6` around `(nx/3, ny/4)`, and
density `rho0` otherwise; on the 600 by 600 grid the box is
`[100,300] x [50,250]` and the cell `(100, 150)` gets `rho0 + 1e-4`. -/
theorem defineInitialDensityAtCenter_square (lattice : MultiBlockLattice2D) (x y : ℤ)
    (hx : 0 ≤ x ∧ x < lattice.getNx) (hy : 0 ≤ y ∧ y < lattice.getNy) :
    ((Tutorial_1_1.defineInitialDensityAtCenter lattice).cell x y).2 = (0, 0)
      ∧ (((Tutorial_1_1.defineInitialDensityAtCenter lattice).cell x y).1 = 1 + 1 / 10000
          ↔ (Int.tdiv lattice.getNx 3 - Int.tdiv lattice.getNx 6 ≤ x
              ∧ x ≤ Int.tdiv lattice.getNx 3 + Int.tdiv lattice.getNx 6)
            ∧ (Int.tdiv lattice.getNy 4 - Int.tdiv lattice.getNx 6 ≤ y
              ∧ y ≤ Int.tdiv lattice.getNy 4 + Int.tdiv lattice.getNx 6))
      ∧ (¬ ((Int.tdiv lattice.getNx 3 - Int.tdiv lattice.getNx 6 ≤ x
              ∧ x ≤ Int.tdiv lattice.getNx 3 + Int.tdiv lattice.getNx 6)
            ∧ (Int.tdiv lattice.getNy 4 - Int.tdiv lattice.getNx 6 ≤ y
              ∧ y ≤ Int.tdiv lattice.getNy 4 + Int.tdiv lattice.getNx 6))
          → ((Tutorial_1_1.defineInitialDensityAtCenter lattice).cell x y).1 = 1)
      ∧ (lattice.getNx = 600 → lattice.getNy = 600 →
          Tutorial_1_1.centralSquare lattice.getNx lattice.getNy = ⟨100, 300, 50, 250⟩
            ∧ (Tutorial_1_1.defineInitialDensityAtCenter lattice).cell 100 150
                = (1 + 1 / 10000, (0, 0))) := by
  have hbox : (Tutorial_1_1.centralSquare lattice.getNx lattice.getNy).contains x y = true
      ↔ (Int.tdiv lattice.getNx 3 - Int.tdiv lattice.getNx 6 ≤ x
              ∧ x ≤ Int.tdiv lattice.getNx 3 + Int.tdiv lattice.getNx 6)
            ∧ (Int.tdiv lattice.getNy 4 - Int.tdiv lattice.getNx 6 ≤ y
              ∧ y ≤ Int.tdiv lattice.getNy 4 + Int.tdiv lattice.getNx 6) := by
    rw [Box2D.contains_iff]
    simp only [Tutorial_1_1.centralSquare, and_assoc]
  rw [defineInitialDensityAtCenter_1_1_cell lattice x y hx hy, ← hbox]
  refine ⟨rfl, ?_, ?_, ?_⟩
  · by_cases h : (Tutorial_1_1.centralSquare lattice.getNx lattice.getNy).contains x y = true
    · simp [h]
    · simp [h]
  · intro h
    simp [h]
  · intro hnx hny
    have h100 : (0 : ℤ) ≤ 100 ∧ (100 : ℤ) < lattice.getNx := by rw [hnx]; decide
    have h150 : (0 : ℤ) ≤ 150 ∧ (150 : ℤ) < lattice.getNy := by rw [hny]; decide
    rw [defineInitialDensityAtCenter_1_1_cell lattice 100 150 h100 h150, hnx, hny]
    exact ⟨by decide, by rw [if_pos (by decide)]⟩

/-- Witness of C3 on a 600 by 600 lattice whose cells hold an arbitrary
earlier sample, at the grid coordinate `(100, 150)`. -/
theorem defineInitialDensityAtCenter_square_witness :
    ((Tutorial_1_1.defineInitialDensityAtCenter ⟨600, 600, fun _ _ => (3, (1, 2))⟩).cell
        100 150).2 = (0, 0)
      ∧ (Tutorial_1_1.defineInitialDensityAtCenter ⟨600, 600, fun _ _ => (3, (1, 2))⟩).cell
          100 150 = (1 + 1 / 10000, (0, 0)) := by
  have h := defineInitialDensityAtCenter_square ⟨600, 600, fun _ _ => (3, (1, 2))⟩ 100 150
    (by decide) (by decide)
  exact ⟨h.1, (h.2.2.2 rfl rfl).2⟩

/-- C4: the two passes of `defineInitialDensityAtCenter` of tutorial 1.2
(uniform `(rho0, u0)`, then `initializeRhoOnDisk`, both over the whole
bounding box) leave at every grid coordinate exactly the sample that one
application of `initializeRhoOnDisk` yields there. -/
theorem defineInitialDensityAtCenter_disk (lattice : MultiBlockLattice2D) (iX iY : ℤ)
    (hx : 0 ≤ iX ∧ iX < lattice.getNx) (hy : 0 ≤ iY ∧ iY < lattice.getNy) :
    (Tutorial_1_2.defineInitialDensityAtCenter lattice).cell iX iY
      = Tutorial_1_2.initializeRhoOnDisk iX iY := by
  have hbb : lattice.getBoundingBox.contains iX iY = true :=
    (getBoundingBox_contains_iff lattice iX iY).2 ⟨hx, hy⟩
  show (initializeAtEquilibriumWith
      (initializeAtEquilibrium lattice lattice.getBoundingBox Tutorial_1_2.rho0 Tutorial_1_2.u0)
      (initializeAtEquilibrium lattice lattice.getBoundingBox Tutorial_1_2.rho0
        Tutorial_1_2.u0).getBoundingBox
      Tutorial_1_2.initializeRhoOnDisk).cell iX iY = _
  rw [initializeAtEquilibriumWith_cell _ _ _ iX iY
      (by rw [initializeAtEquilibrium_getBoundingBox]; exact hbb),
    initializeAtEquilibrium_getBoundingBox, if_pos hbb]

/-- Witness of C4 on the 600 by 600 lattice of `main`, whose cells hold an
arbitrary earlier sample, at the grid coordinate `(210, 160)`. -/
theorem defineInitialDensityAtCenter_disk_witness :
    (Tutorial_1_2.defineInitialDensityAtCenter
        ⟨Tutorial_1_2.nx, Tutorial_1_2.ny, fun _ _ => (3, (1, 2))⟩).cell 210 160
      = Tutorial_1_2.initializeRhoOnDisk 210 160 :=
  defineInitialDensityAtCenter_disk ⟨Tutorial_1_2.nx, Tutorial_1_2.ny, fun _ _ => (3, (1, 2))⟩
    210 160 (by decide) (by decide)

/-- C5, as stated, fails on a grid that is wider than high: for `nx = 600`,
`ny = 100` the box spans `y` from `-75` to `125`, outside `[0, 100)`. -/
theorem centralSquare_leaves_grid :
    (1 : ℤ) ≤ 600 ∧ (1 : ℤ) ≤ 100
      ∧ Tutorial_1_1.centralSquare 600 100 = ⟨100, 300, -75, 125⟩
      ∧ ¬ (0 ≤ (Tutorial_1_1.centralSquare 600 100).y0
            ∧ (Tutorial_1_1.centralSquare 600 100).y1 ≤ 100 - 1) := by
  decide

/-- C5 (amended): for `nx ≥ 1`, `ny ≥ 1` the box `centralSquare` has
`x1 ≤ x2`, `y1 ≤ y2` and its `x` extent lies in `[0, nx)`; its `y` extent
lies in `[0, ny)` exactly when `nx/6 ≤ ny/4` (integer division), which holds
on every square grid; for `nx = ny = 600` the box is `[100,300] x [50,250]`. -/
theorem centralSquare_bounds (nx ny : ℤ) (hnx : 1 ≤ nx) (hny : 1 ≤ ny) :
    (Tutorial_1_1.centralSquare nx ny).x0 ≤ (Tutorial_1_1.centralSquare nx ny).x1
      ∧ (Tutorial_1_1.centralSquare nx ny).y0 ≤ (Tutorial_1_1.centralSquare nx ny).y1
      ∧ 0 ≤ (Tutorial_1_1.centralSquare nx ny).x0
      ∧ (Tutorial_1_1.centralSquare nx ny).x1 ≤ nx - 1
      ∧ ((0 ≤ (Tutorial_1_1.centralSquare nx ny).y0
            ∧ (Tutorial_1_1.centralSquare nx ny).y1 ≤ ny - 1)
          ↔ Int.tdiv nx 6 ≤ Int.tdiv ny 4)
      ∧ (nx = ny → Int.tdiv nx 6 ≤ Int.tdiv ny 4)
      ∧ Tutorial_1_1.centralSquare 600 600 = ⟨100, 300, 50, 250⟩ := by
  have h6 : Int.tdiv nx 6 = nx / 6 := tdiv_size nx 6 (by omega) (by decide)
  have h3 : Int.tdiv nx 3 = nx / 3 := tdiv_size nx 3 (by omega) (by decide)
  have h4 : Int.tdiv ny 4 = ny / 4 := tdiv_size ny 4 (by omega) (by decide)
  simp only [Tutorial_1_1.centralSquare, h6, h3, h4]
  refine ⟨by omega, by omega, by omega, by omega, ⟨by omega, by omega⟩, by omega, by decide⟩

/-- Witness of C5 (amended) on the shipped 600 by 600 grid. -/
theorem centralSquare_bounds_witness :
    0 ≤ (Tutorial_1_1.centralSquare 600 600).x0
      ∧ (Tutorial_1_1.centralSquare 600 600).x1 ≤ 600 - 1
      ∧ 0 ≤ (Tutorial_1_1.centralSquare 600 600).y0
      ∧ (Tutorial_1_1.centralSquare 600 600).y1 ≤ 600 - 1 := by
  have h := centralSquare_bounds 600 600 (by decide) (by decide)
  have hy := h.2.2.2.2.1.2 (h.2.2.2.2.2.1 rfl)
  exact ⟨h.2.2.1, h.2.2.2.1, hy.1, hy.2⟩

end Perturbation

/-! ## Main loops -/

section MainLoop

/-- Export frames of a concatenation. -/
lemma exportFrames_append (a b : List Event) :
    exportFrames (a ++ b) = exportFrames a ++ exportFrames b := by
  induction a with
  | nil => rfl
  | cons e rest ih =>
    cases e with
    | writeScaledGif iter => simp [exportFrames, ih]
    | collideAndStream => simp [exportFrames, ih]

/-- One iteration exports its own step number, if anything. -/
lemma exportFrames_stepEvents (trigger : ℤ → Bool) (iT : ℤ) :
    exportFrames (stepEvents trigger iT) = if trigger iT then [iT] else [] := by
  unfold stepEvents
  by_cases h : trigger iT = true
  · simp [h, exportFrames]
  · simp [h, exportFrames]

/-- Export frames of `k + 1` iterations. -/
lemma exportFrames_runEvents_succ (trigger : ℤ → Bool) (k : ℕ) (iT : ℤ) :
    exportFrames (runEvents trigger (k + 1) iT)
      = (if trigger iT then [iT] else []) ++ exportFrames (runEvents trigger k (iT + 1)) := by
  rw [runEvents, exportFrames_append, exportFrames_stepEvents]

/-- A frame is exported by `k` iterations from `iT` exactly when it is one
of their step numbers and the guard holds there. -/
lemma mem_exportFrames_runEvents (trigger : ℤ → Bool) (k : ℕ) (iT f : ℤ) :
    f ∈ exportFrames (runEvents trigger k iT)
      ↔ (iT ≤ f ∧ f < iT + k) ∧ trigger f = true := by
  induction k generalizing iT with
  | zero =>
    simp only [runEvents, exportFrames, List.not_mem_nil, false_iff]
    rintro ⟨⟨h1, h2⟩, _⟩
    simp only [Nat.cast_zero, add_zero] at h2
    omega
  | succ k ih =>
    rw [exportFrames_runEvents_succ, List.mem_append, ih]
    by_cases ht : trigger iT = true
    · simp only [ht, if_true, List.mem_singleton]
      constructor
      · rintro (h | ⟨⟨h1, h2⟩, h3⟩)
        · subst h
          exact ⟨⟨le_refl _, by push_cast; omega⟩, ht⟩
        · exact ⟨⟨by omega, by push_cast; omega⟩, h3⟩
      · rintro ⟨⟨h1, h2⟩, h3⟩
        push_cast at h2
        by_cases hf : f = iT
        · exact Or.inl hf
        · exact Or.inr ⟨⟨by omega, by omega⟩, h3⟩
    · have ht2 : trigger iT = false := by simpa using ht
      simp only [ht2, Bool.false_eq_true, if_false, List.not_mem_nil, false_or]
      constructor
      · rintro ⟨⟨h1, h2⟩, h3⟩
        exact ⟨⟨by omega, by push_cast; omega⟩, h3⟩
      · rintro ⟨⟨h1, h2⟩, h3⟩
        push_cast at h2
        have hf : f ≠ iT := by
          intro hf
          rw [hf, ht2] at h3
          exact Bool.false_ne_true h3
        exact ⟨⟨by omega, by omega⟩, h3⟩

/-- The exported frame numbers are strictly increasing. -/
lemma pairwise_exportFrames_runEvents (trigger : ℤ → Bool) (k : ℕ) (iT : ℤ) :
    (exportFrames (runEvents trigger k iT)).Pairwise (· < ·) := by
  induction k generalizing iT with
  | zero => simp [runEvents, exportFrames]
  | succ k ih =>
    rw [exportFrames_runEvents_succ, List.pairwise_append]
    refine ⟨?_, ih (iT + 1), ?_⟩
    · by_cases ht : trigger iT = true
      · simp [ht]
      · simp [ht]
    · intro a ha b hb
      have hb2 := (mem_exportFrames_runEvents trigger k (iT + 1) b).1 hb
      by_cases ht : trigger iT = true
      · simp only [ht, if_true, List.mem_singleton] at ha
        omega
      · simp [ht] at ha

/-- No frame is exported twice. -/
lemma count_exportFrames_runEvents (trigger : ℤ → Bool) (k : ℕ) (iT f : ℤ) :
    (exportFrames (runEvents trigger k iT)).count f ≤ 1 := by
  have hnd : (exportFrames (runEvents trigger k iT)).Nodup :=
    (pairwise_exportFrames_runEvents trigger k iT).imp (fun h => ne_of_lt h)
  exact List.nodup_iff_count_le_one.1 hnd f

/-- A `for` loop whose body appends the events of one iteration, whose
condition holds on the first `k` steps and fails at step `iT + k`, exits with
`iT + k` and the events of these `k` iterations, on any bound of at least
`k`. -/
lemma forLoop_run (cond : ℤ → Bool) (body : ℤ → List Event → List Event)
    (trigger : ℤ → Bool) (hbody : ∀ iT tr, body iT tr = tr ++ stepEvents trigger iT) :
    ∀ (k : ℕ) (iT : ℤ) (tr : List Event) (fuel : ℕ),
      (∀ j : ℕ, j < k → cond (iT + j) = true) → cond (iT + k) = false → k ≤ fuel →
      forLoop cond body fuel iT tr = some (iT + k, tr ++ runEvents trigger k iT) := by
  intro k
  induction k with
  | zero =>
    intro iT tr fuel _ hstop _
    simp only [Nat.cast_zero, add_zero] at hstop
    cases fuel with
    | zero => simp [forLoop, hstop, runEvents]
    | succ fuel => simp [forLoop, hstop, runEvents]
  | succ k ih =>
    intro iT tr fuel hrun hstop hfuel
    cases fuel with
    | zero => omega
    | succ fuel =>
      have h0 : cond iT = true := by
        have := hrun 0 (Nat.succ_pos k)
        simpa using this
      have hrun1 : ∀ j : ℕ, j < k → cond (iT + 1 + j) = true := by
        intro j hj
        have := hrun (j + 1) (by omega)
        rw [show iT + 1 + (j : ℤ) = iT + ((j + 1 : ℕ) : ℤ) by push_cast; ring]
        exact this
      have hstop1 : cond (iT + 1 + k) = false := by
        rw [show iT + 1 + (k : ℤ) = iT + ((k + 1 : ℕ) : ℤ) by push_cast; ring]
        exact hstop
      rw [forLoop, if_pos h0, ih (iT + 1) (body iT tr) fuel hrun1 hstop1 (by omega), hbody]
      rw [show iT + 1 + (k : ℤ) = iT + ((k + 1 : ℕ) : ℤ) by push_cast; ring]
      simp [runEvents, List.append_assoc]

/-- The loop body of tutorial 1.1 appends the events of one iteration whose
export is guarded by `iT % 40 == 0`. -/
lemma loopBody_1_1_eq (iT : ℤ) (tr : List Event) :
    Tutorial_1_1.loopBody iT tr
      = tr ++ stepEvents (fun i => decide (Int.tmod i 40 = 0)) iT := by
  unfold Tutorial_1_1.loopBody stepEvents
  by_cases h : Int.tmod iT 40 = 0
  · simp [h]
  · simp [h]

/-- The loop bodies of tutorials 1.1 and 1.2 are the same function. -/
lemma loopBody_1_2_eq : Tutorial_1_2.loopBody = Tutorial_1_1.loopBody := rfl

/-- The main loops of tutorials 1.1 and 1.2 are the same function. -/
lemma mainLoop_1_2_eq : Tutorial_1_2.mainLoop = Tutorial_1_1.mainLoop := rfl

/-- The fixed-iteration loop exits after `maxIter` iterations. -/
lemma mainLoop_1_1_run (maxIter : ℤ) (h : 0 ≤ maxIter) (fuel : ℕ)
    (hfuel : maxIter.toNat ≤ fuel) :
    Tutorial_1_1.mainLoop maxIter fuel
      = some (maxIter, runEvents (fun i => decide (Int.tmod i 40 = 0)) maxIter.toNat 0) := by
  have hk : ((maxIter.toNat : ℕ) : ℤ) = maxIter := Int.toNat_of_nonneg h
  have hrun := forLoop_run (fun iT => decide (iT < maxIter)) Tutorial_1_1.loopBody
    (fun i => decide (Int.tmod i 40 = 0)) loopBody_1_1_eq maxIter.toNat 0 [] fuel
    (by
      intro j hj
      have : (j : ℤ) < maxIter := by omega
      simpa using this)
    (by simp [hk])
    hfuel
  rw [Tutorial_1_1.mainLoop, hrun]
  simp [hk]

/-- Number of exports of `k` iterations of the fixed-cadence loop from a
step `iT ≥ 0`: the multiples of 40 in `[iT, iT + k)`. -/
lemma length_exportFrames_cadence (k : ℕ) (iT : ℤ) (h : 0 ≤ iT) :
    ((exportFrames (runEvents (fun i => decide (Int.tmod i 40 = 0)) k iT)).length : ℤ)
      = (iT + k + 39) / 40 - (iT + 39) / 40 := by
  induction k generalizing iT with
  | zero => simp [runEvents, exportFrames]
  | succ k ih =>
    rw [exportFrames_runEvents_succ, List.length_append]
    push_cast
    rw [ih (iT + 1) (by omega)]
    have hmod : Int.tmod iT 40 = iT % 40 := Int.tmod_eq_emod h (by decide)
    by_cases h0 : iT % 40 = 0
    · simp only [hmod, h0, decide_True, if_true, List.length_singleton, Nat.cast_one]
      omega
    · simp only [hmod, h0, decide_False, Bool.false_eq_true, if_false, List.length_nil,
        Nat.cast_zero]
      omega

/-- C9, as stated, fails for `maxIter = 1`: the single iteration `iT = 0`
exports frame 0, one export, while `floor(1 / 40) = 0`. -/
theorem mainLoop_export_count_not_floor :
    (0 : ℤ) ≤ 1
      ∧ Tutorial_1_1.mainLoop 1 1
          = some (1, [Event.writeScaledGif 0, Event.collideAndStream])
      ∧ Tutorial_1_2.mainLoop 1 1
          = some (1, [Event.writeScaledGif 0, Event.collideAndStream])
      ∧ (exportFrames [Event.writeScaledGif 0, Event.collideAndStream]).length = 1
      ∧ (1 : ℤ) / 40 = 0 := by
  decide

/-- C9 (amended): for `maxIter ≥ 0` the fixed-iteration main loop of
tutorials 1.1 and 1.2 exits after `maxIter` steps having exported exactly
`ceil(maxIter / 40)` images, each frame at most once; this is
`floor(maxIter / 40)` when 40 divides `maxIter`, and 25 for the shipped
`maxIter = 1000`. -/
theorem mainLoop_export_count (maxIter : ℤ) (h : 0 ≤ maxIter) :
    ∃ trace : List Event,
      (∀ fuel : ℕ, maxIter.toNat ≤ fuel →
          Tutorial_1_1.mainLoop maxIter fuel = some (maxIter, trace)
            ∧ Tutorial_1_2.mainLoop maxIter fuel = some (maxIter, trace))
        ∧ ((exportFrames trace).length : ℤ) = (maxIter + 39) / 40
        ∧ (∀ iT : ℤ, (exportFrames trace).count iT ≤ 1)
        ∧ (maxIter % 40 = 0 → ((exportFrames trace).length : ℤ) = maxIter / 40)
        ∧ (maxIter = 1000 → (exportFrames trace).length = 25) := by
  have hk : ((maxIter.toNat : ℕ) : ℤ) = maxIter := Int.toNat_of_nonneg h
  have hlen := length_exportFrames_cadence maxIter.toNat 0 (le_refl 0)
  rw [hk] at hlen
  have hlen2 : ((exportFrames (runEvents (fun i => decide (Int.tmod i 40 = 0))
      maxIter.toNat 0)).length : ℤ) = (maxIter + 39) / 40 := by
    rw [hlen]
    omega
  refine ⟨runEvents (fun i => decide (Int.tmod i 40 = 0)) maxIter.toNat 0, ?_, hlen2, ?_, ?_, ?_⟩
  · intro fuel hfuel
    rw [mainLoop_1_2_eq]
    exact ⟨mainLoop_1_1_run maxIter h fuel hfuel, mainLoop_1_1_run maxIter h fuel hfuel⟩
  · intro iT
    exact count_exportFrames_runEvents _ _ _ _
  · intro hdiv
    rw [hlen2]
    omega
  · intro h1000
    have : ((exportFrames (runEvents (fun i => decide (Int.tmod i 40 = 0))
        maxIter.toNat 0)).length : ℤ) = 25 := by
      rw [hlen2, h1000]
      decide
    exact_mod_cast this

/-- Witness of C9 (amended) at the shipped `maxIter = 1000`. -/
theorem mainLoop_export_count_witness :
    ∃ trace : List Event,
      Tutorial_1_1.mainLoop 1000 1000 = some (1000, trace)
        ∧ Tutorial_1_2.mainLoop Tutorial_1_2.maxIter 1000 = some (1000, trace)
        ∧ (exportFrames trace).length = 25 := by
  obtain ⟨trace, hrun, _, _, _, h25⟩ := mainLoop_export_count 1000 (by decide)
  exact ⟨trace, (hrun 1000 (by decide)).1, (hrun 1000 (by decide)).2, h25 rfl⟩

/-- The loop body of tutorial 1.5 appends the events of one iteration whose
export is guarded by `iT % nStep == 0 && iT > 0`. -/
lemma loopBody_1_5_eq (nStep iT : ℤ) (tr : List Event) :
    Tutorial_1_5.loopBody nStep iT tr
      = tr ++ stepEvents (fun i => decide (Int.tmod i nStep = 0 ∧ i > 0)) iT := by
  unfold Tutorial_1_5.loopBody Tutorial_1_5.writeGifs stepEvents
  by_cases h : Int.tmod iT nStep = 0 ∧ iT > 0
  · simp [h]
  · simp [h]

/-- With a positive time step, a step number is below `ceil(maxT / deltaT)`
exactly when the loop condition `iT * deltaT < maxT` holds for it. -/
lemma lt_ceil_steps_iff (deltaT maxT : ℚ) (hdt : 0 < deltaT) (j : ℕ) :
    j < ⌈maxT / deltaT⌉₊ ↔ (j : ℚ) * deltaT < maxT := by
  rw [Nat.lt_ceil, lt_div_iff₀ hdt]

/-- With a positive time step the time-based loop exits after
`ceil(maxT / deltaT)` iterations. -/
lemma mainLoop_1_5_run (deltaT maxT : ℚ) (nStep : ℤ) (hdt : 0 < deltaT) (fuel : ℕ)
    (hfuel : ⌈maxT / deltaT⌉₊ ≤ fuel) :
    Tutorial_1_5.mainLoop deltaT maxT nStep fuel
      = some ((⌈maxT / deltaT⌉₊ : ℤ),
          runEvents (fun i => decide (Int.tmod i nStep = 0 ∧ i > 0)) ⌈maxT / deltaT⌉₊ 0) := by
  have hrun := forLoop_run (fun iT : ℤ => decide ((iT : ℚ) * deltaT < maxT))
    (Tutorial_1_5.loopBody nStep)
    (fun i => decide (Int.tmod i nStep = 0 ∧ i > 0)) (loopBody_1_5_eq nStep)
    ⌈maxT / deltaT⌉₊ 0 [] fuel
    (by
      intro j hj
      have := (lt_ceil_steps_iff deltaT maxT hdt j).1 hj
      simpa using this)
    (by
      have := (lt_ceil_steps_iff deltaT maxT hdt ⌈maxT / deltaT⌉₊).not.1 (lt_irrefl _)
      simpa using this)
    hfuel
  rw [Tutorial_1_5.mainLoop, hrun]
  simp

/-- C10: in the time-based main loop of tutorial 1.5, for a time step
`deltaT > 0`, any target time `maxT` and an export interval `nStep ≥ 1`, the
loop exits after some `k` steps; no frame is exported at step 0; every frame
is exported at most once; the frame `iT` is exported exactly when `iT` is an
executed step (`0 ≤ iT < k`, that is `iT * deltaT < maxT`), `iT > 0` and
`iT` is a multiple of `nStep`; and the exported frame numbers are strictly
increasing. -/
theorem mainLoop_time_exports (deltaT maxT : ℚ) (nStep : ℤ)
    (hdt : 0 < deltaT) (hn : 1 ≤ nStep) :
    ∃ (k : ℕ) (trace : List Event),
      (∀ fuel : ℕ, k ≤ fuel →
          Tutorial_1_5.mainLoop deltaT maxT nStep fuel = some ((k : ℤ), trace))
        ∧ (∀ j : ℕ, j < k ↔ (j : ℚ) * deltaT < maxT)
        ∧ (0 : ℤ) ∉ exportFrames trace
        ∧ (∀ iT : ℤ, (exportFrames trace).count iT ≤ 1)
        ∧ (∀ iT : ℤ, iT ∈ exportFrames trace
            ↔ (0 ≤ iT ∧ iT < k) ∧ 0 < iT ∧ nStep ∣ iT)
        ∧ (exportFrames trace).Pairwise (· < ·) := by
  have hmem : ∀ iT : ℤ,
      iT ∈ exportFrames (runEvents (fun i => decide (Int.tmod i nStep = 0 ∧ i > 0))
          ⌈maxT / deltaT⌉₊ 0)
        ↔ (0 ≤ iT ∧ iT < (⌈maxT / deltaT⌉₊ : ℤ)) ∧ 0 < iT ∧ nStep ∣ iT := by
    intro iT
    rw [mem_exportFrames_runEvents]
    simp only [zero_add, decide_eq_true_eq, gt_iff_lt]
    constructor
    · rintro ⟨hr, hmod, hpos⟩
      rw [Int.tmod_eq_emod (by omega) (by omega)] at hmod
      exact ⟨hr, hpos, Int.dvd_of_emod_eq_zero hmod⟩
    · rintro ⟨hr, hpos, hdvd⟩
      refine ⟨hr, ?_, hpos⟩
      rw [Int.tmod_eq_emod (by omega) (by omega)]
      exact Int.emod_eq_zero_of_dvd hdvd
  refine ⟨⌈maxT / deltaT⌉₊,
    runEvents (fun i => decide (Int.tmod i nStep = 0 ∧ i > 0)) ⌈maxT / deltaT⌉₊ 0,
    ?_, ?_, ?_, ?_, hmem, ?_⟩
  · intro fuel hfuel
    exact mainLoop_1_5_run deltaT maxT nStep hdt fuel hfuel
  · intro j
    exact lt_ceil_steps_iff deltaT maxT hdt j
  · intro h0
    have := ((hmem 0).1 h0).2.1
    omega
  · intro iT
    exact count_exportFrames_runEvents _ _ _ _
  · exact pairwise_exportFrames_runEvents _ _ _

/-- Witness of C10 at time step `1/2`, target time `3` and export interval
`2`: the loop runs and frame 0 is not exported. -/
theorem mainLoop_time_exports_witness :
    ∃ (k : ℕ) (trace : List Event),
      Tutorial_1_5.mainLoop (1 / 2) 3 2 k = some ((k : ℤ), trace)
        ∧ (0 : ℤ) ∉ exportFrames trace
        ∧ (exportFrames trace).Pairwise (· < ·) := by
  obtain ⟨k, trace, hrun, _, h0, _, _, hpw⟩ :=
    mainLoop_time_exports (1 / 2) 3 2 (by norm_num) (by decide)
  exact ⟨k, trace, hrun k (le_refl k), h0, hpw⟩

/-- One iteration performs exactly one `collideAndStream`. -/
lemma count_collideAndStream_stepEvents (trigger : ℤ → Bool) (iT : ℤ) :
    (stepEvents trigger iT).count Event.collideAndStream = 1 := by
  unfold stepEvents
  by_cases h : trigger iT = true
  · simp [h, List.count_cons]
  · simp [h]

/-- The events of `k` iterations hold exactly `k` calls of `collideAndStream`. -/
lemma count_collideAndStream_runEvents (trigger : ℤ → Bool) (k : ℕ) (iT : ℤ) :
    (runEvents trigger k iT).count Event.collideAndStream = k := by
  induction k generalizing iT with
  | zero => simp [runEvents]
  | succ k ih =>
    rw [runEvents, List.count_append, count_collideAndStream_stepEvents, ih (iT + 1)]
    omega

/-- C11: each main loop terminates, every iteration performs exactly one
`collideAndStream`, and the step counter at exit equals the number of
iterations: the fixed-iteration loop of tutorials 1.1 and 1.2 performs exactly
`maxIter` steps for `maxIter ≥ 0`, and the time-based loop of tutorial 1.5
performs, for `deltaT > 0`, exactly `k` steps with `k` the least natural
number such that `k * deltaT ≥ maxT`.  The export interval `nStep` is the
value of the library helper `nStep(imSave)`, an integer of at least one, so
that `iT % nStep` is defined. -/
theorem mainLoop_steps (maxIter : ℤ) (deltaT maxT : ℚ) (nStep : ℤ)
    (hmax : 0 ≤ maxIter) (hdt : 0 < deltaT) (_hn : 1 ≤ nStep) :
    (∃ trace : List Event,
        (∀ fuel : ℕ, maxIter.toNat ≤ fuel →
            Tutorial_1_1.mainLoop maxIter fuel = some (maxIter, trace)
              ∧ Tutorial_1_2.mainLoop maxIter fuel = some (maxIter, trace))
          ∧ (trace.count Event.collideAndStream : ℤ) = maxIter)
      ∧ (∃ (k : ℕ) (trace : List Event),
          (∀ fuel : ℕ, k ≤ fuel →
              Tutorial_1_5.mainLoop deltaT maxT nStep fuel = some ((k : ℤ), trace))
            ∧ trace.count Event.collideAndStream = k
            ∧ maxT ≤ (k : ℚ) * deltaT
            ∧ (∀ j : ℕ, maxT ≤ (j : ℚ) * deltaT → k ≤ j))
      ∧ (∀ (iT : ℤ) (tr : List Event),
          (Tutorial_1_1.loopBody iT tr).count Event.collideAndStream
              = tr.count Event.collideAndStream + 1
            ∧ (Tutorial_1_2.loopBody iT tr).count Event.collideAndStream
              = tr.count Event.collideAndStream + 1
            ∧ (Tutorial_1_5.loopBody nStep iT tr).count Event.collideAndStream
              = tr.count Event.collideAndStream + 1) := by
  refine ⟨?_, ?_, ?_⟩
  · refine ⟨runEvents (fun i => decide (Int.tmod i 40 = 0)) maxIter.toNat 0, ?_, ?_⟩
    · intro fuel hfuel
      rw [mainLoop_1_2_eq]
      exact ⟨mainLoop_1_1_run maxIter hmax fuel hfuel, mainLoop_1_1_run maxIter hmax fuel hfuel⟩
    · rw [count_collideAndStream_runEvents]
      exact Int.toNat_of_nonneg hmax
  · refine ⟨⌈maxT / deltaT⌉₊,
      runEvents (fun i => decide (Int.tmod i nStep = 0 ∧ i > 0)) ⌈maxT / deltaT⌉₊ 0,
      ?_, count_collideAndStream_runEvents _ _ _, ?_, ?_⟩
    · intro fuel hfuel
      exact mainLoop_1_5_run deltaT maxT nStep hdt fuel hfuel
    · exact not_lt.1
        ((lt_ceil_steps_iff deltaT maxT hdt ⌈maxT / deltaT⌉₊).not.1 (lt_irrefl _))
    · intro j hj
      exact not_lt.1 ((lt_ceil_steps_iff deltaT maxT hdt j).not.2 (not_lt.2 hj))
  · intro iT tr
    rw [loopBody_1_2_eq, loopBody_1_1_eq, loopBody_1_5_eq, List.count_append,
      List.count_append, count_collideAndStream_stepEvents,
      count_collideAndStream_stepEvents]
    exact ⟨rfl, rfl, rfl⟩

/-- Witness of C11 at the shipped configurations: `maxIter = 1000` for the
fixed-iteration loop, and `deltaT = 1e-4`, `maxT = 3.1`, export interval 1000
for the time-based loop, which performs 31000 steps. -/
theorem mainLoop_steps_witness :
    (∃ trace : List Event,
        Tutorial_1_1.mainLoop 1000 1000 = some (1000, trace)
          ∧ (trace.count Event.collideAndStream : ℤ) = 1000)
      ∧ (∃ trace : List Event,
          Tutorial_1_5.mainLoop (1 / 10000) (31 / 10) 1000 31000 = some (31000, trace)
            ∧ trace.count Event.collideAndStream = 31000) := by
  obtain ⟨⟨tr1, hrun1, hc1⟩, ⟨k, tr5, hrun5, hc5, hge, hleast⟩, _⟩ :=
    mainLoop_steps 1000 (1 / 10000) (31 / 10) 1000 (by decide) (by norm_num) (by decide)
  have hk1 : k ≤ 31000 := hleast 31000 (by norm_num)
  have hk2 : 31000 ≤ k := by
    have h1 : (31000 : ℚ) ≤ (k : ℚ) := by linarith
    exact_mod_cast h1
  have hk : k = 31000 := le_antisymm hk1 hk2
  subst hk
  exact ⟨⟨tr1, (hrun1 1000 (by decide)).1, hc1⟩, ⟨tr5, hrun5 31000 (le_refl _), hc5⟩⟩

end MainLoop

end Palabos
